import Mathlib

/-!
Verification development for the Zammad-Kimai time-tracking sync engine
(backend/app: services/reconciler.py, services/sync_service.py, scheduler.py,
api/v1/endpoints/sync.py, schemas/connector.py).

Shallow embedding conventions:
* Naive local datetimes (format YYYY-MM-DDTHH:MM:SS, no timezone suffix) are in
  bijection with a count of seconds; they are modelled as `Int` seconds.
  Equality of the formatted strings is equality of the second counts.
* Dates (format YYYY-MM-DD) are modelled as `Int` day numbers; the date part of
  a datetime (Python `.split("T")[0]` or `strftime`) is floor division by 86400.
* Python `datetime + timedelta(seconds=d)` is integer addition.
* `zoneinfo.ZoneInfo` timezone conversion of an aware timestamp is modelled by an
  arbitrary offset function `tzOffset : Int → Int` applied to the UTC instant
  (the tz database is environment data, not code of this repository).
* Python strings are Lean `String` (a list of characters; slicing `[:n]` is
  `List.take n` on the character list, `len` is the character count).
* Database rows are records in Lean structures; a table is a `List`; an insert
  followed by commit appends to the list.
-/

set_option autoImplicit false

namespace ZammadKimaiSync

/-- Date (day number) of a naive local datetime given in seconds:
the `YYYY-MM-DD` part of `YYYY-MM-DDTHH:MM:SS`. -/
def dateOf (t : Int) : Int := Int.fdiv t 86400

/-- `connectors/base.py` `TimeEntryNormalized` (with the fields the reconciler and
sync service actually read; both connectors construct entries with these fields).
`created_at` is the source-system creation timestamp, an aware ISO-8601 instant,
modelled as UTC seconds; `begin_time` is a naive local datetime in seconds. -/
structure TimeEntryNormalized where
  source_id : String
  source : String := ""
  ticket_number : Option String := none
  ticket_id : Option Int := none
  ticket_title : Option String := none
  org_name : Option String := none
  customer_name : Option String := none
  description : String := ""
  duration_sec : Int := 0
  activity_type_id : Option Int := none
  entry_date : Int := 0
  begin_time : Option Int := none
  created_at : Option Int := none
  deriving DecidableEq

/-- `services/reconciler.py` `ReconciliationStatus` (a `str` enum). -/
inductive ReconciliationStatus where
  | MATCH
  | CONFLICT
  | MISSING_IN_KIMAI
  | MISSING_IN_ZAMMAD
  deriving DecidableEq

/-- The string value of the enum member (`class ReconciliationStatus(str, Enum)`). -/
def ReconciliationStatus.str : ReconciliationStatus → String
  | .MATCH => "match"
  | .CONFLICT => "conflict"
  | .MISSING_IN_KIMAI => "missing_in_kimai"
  | .MISSING_IN_ZAMMAD => "missing_in_zammad"

/-- `services/reconciler.py` `ReconciledTimeEntry`: the reconciliation status plus
optional links to the entries of the two systems (the copied display fields of the
Pydantic model carry no further information for the properties below). -/
structure ReconciledTimeEntry where
  reconciliation_status : ReconciliationStatus
  zammad_entry : Option TimeEntryNormalized := none
  kimai_entry : Option TimeEntryNormalized := none
  deriving DecidableEq

/-- The rounding mode of the target system: nearest / floor / ceiling
(`schemas/connector.py` lists modes closest, floor, ceil). -/
inductive RoundingMode where
  | closest
  | floorMode
  | ceilMode
  deriving DecidableEq

/-- `schemas/connector.py` `KimaiConnectorConfig` time-rounding fields:
granularities in minutes (0 = disabled) for begin, end and duration, and the
weekdays (0 = Monday .. 6 = Sunday) on which rounding applies. -/
structure RoundingConfig where
  rounding_mode : RoundingMode
  round_begin : Nat := 0
  round_end : Nat := 0
  round_duration : Nat := 0
  rounding_days : List Nat := [0, 1, 2, 3, 4, 5, 6]
  deriving DecidableEq

/-- Weekday of a day number, 0 = Monday .. 6 = Sunday.
Day 0 (1970-01-01) was a Thursday, hence offset 3. -/
def weekday (d : Int) : Nat := ((d + 3).emod 7).toNat

/-- Round a second count to a granularity of `gMin` minutes (0 = disabled)
in the given mode; nearest rounds half up. -/
def roundVal (mode : RoundingMode) (gMin : Nat) (x : Int) : Int :=
  if gMin = 0 then x
  else
    let g : Int := (gMin : Int) * 60
    match mode with
    | .closest => (Int.fdiv (x + Int.fdiv g 2) g) * g
    | .floorMode => (Int.fdiv x g) * g
    | .ceilMode => -((Int.fdiv (-x) g) * g)

/-- Modelled from the spec: `KimaiConnector.apply_rounding_rules` is called by the
reconciler (reconciler.py line 67) but is not defined in the provided sources.
Per the spec, the configured rounding rule of the target (mode nearest/floor/ceiling,
per-field granularity in minutes, applicable only on configured weekdays) is
applied to the begin time of the source and duration before comparison. -/
def apply_rounding_rules (cfg : RoundingConfig) (beginTime : Int) (durationSec : Int)
    (entryDate : Int) : Int × Int :=
  if cfg.rounding_days.contains (weekday entryDate) then
    (roundVal cfg.rounding_mode cfg.round_begin beginTime,
     roundVal cfg.rounding_mode cfg.round_duration durationSec)
  else (beginTime, durationSec)

/-- `ReconciliationService._is_exact_match` (reconciler.py lines 45-100).
The four rules in source order: identity on `source_id` (non-empty on both
sides), rounding-aware comparison (only when a Kimai connector with a rounding
configuration is available and the Zammad entry has a begin time), tolerant
match on ticket + begin time + duration within 60 s, and the coarse fallback on
ticket + entry date + duration difference strictly below one minute (the Python
comparison `abs(z/60 - k/60) < 1.0` on exact rationals). Python `==` on two
`None` values is true, as is Lean equality on two `none` values. -/
def is_exact_match (cfg : Option RoundingConfig) (z k : TimeEntryNormalized) : Bool :=
  (decide (z.source_id ≠ "") && decide (k.source_id ≠ "") &&
    decide (z.source_id = k.source_id))
  || (match cfg, z.begin_time with
      | some c, some zb =>
        let r := apply_rounding_rules c zb z.duration_sec z.entry_date
        decide (z.ticket_number = k.ticket_number) &&
        decide (k.begin_time = some r.1) &&
        decide ((r.2 - k.duration_sec).natAbs ≤ 60)
      | _, _ => false)
  || (decide (z.ticket_number = k.ticket_number) &&
      decide (z.begin_time = k.begin_time) &&
      decide ((z.duration_sec - k.duration_sec).natAbs ≤ 60))
  || (decide (z.ticket_number = k.ticket_number) &&
      decide (z.entry_date = k.entry_date) &&
      decide ((z.duration_sec - k.duration_sec).natAbs < 60))

/-- `ReconciliationService._is_conflict` (reconciler.py lines 102-124):
same ticket + begin time with duration difference above 60 s, or same ticket +
entry date with duration difference of at least one minute. -/
def is_conflict (z k : TimeEntryNormalized) : Bool :=
  (decide (z.ticket_number = k.ticket_number) &&
   decide (z.begin_time = k.begin_time) &&
   decide ((z.duration_sec - k.duration_sec).natAbs > 60))
  || (decide (z.ticket_number = k.ticket_number) &&
      decide (z.entry_date = k.entry_date) &&
      decide ((z.duration_sec - k.duration_sec).natAbs ≥ 60))

/-- Python dict insertion: replace in place if the key exists, else append
(used to model `{entry.source_id: entry for entry in kimai_entries}`). -/
def insertOrReplace (d : List (String × TimeEntryNormalized)) (key : String)
    (v : TimeEntryNormalized) : List (String × TimeEntryNormalized) :=
  if d.any (fun p => p.1 == key) then
    d.map (fun p => if p.1 == key then (key, v) else p)
  else d ++ [(key, v)]

/-- The `unmatched_kimai_entries` dict of `reconcile_entries` (line 137),
as an insertion-ordered association list. -/
def buildDict (ks : List TimeEntryNormalized) : List (String × TimeEntryNormalized) :=
  ks.foldl (fun d e => insertOrReplace d e.source_id e) []

/-- `del unmatched_kimai_entries[k_id]`. -/
def eraseKey (d : List (String × TimeEntryNormalized)) (key : String) :
    List (String × TimeEntryNormalized) :=
  d.filter (fun p => p.1 != key)

/-- The inner loop of `reconcile_entries` (lines 141-161): scan the remaining
Kimai entries in dict order; for each candidate the match test runs before the
conflict test, and the first candidate firing either test wins.
Returns the winning key and entry plus `true` for a match, `false` for a conflict. -/
def scanCandidates (cfg : Option RoundingConfig) (z : TimeEntryNormalized) :
    List (String × TimeEntryNormalized) → Option (String × TimeEntryNormalized × Bool)
  | [] => none
  | (kid, k) :: rest =>
    if is_exact_match cfg z k then some (kid, k, true)
    else if is_conflict z k then some (kid, k, false)
    else scanCandidates cfg z rest

/-- The outer loop of `reconcile_entries` (lines 139-174): one outcome per Zammad
entry; a matched or conflicted Kimai entry is deleted from the dict. -/
def reconcileLoop (cfg : Option RoundingConfig) :
    List TimeEntryNormalized → List (String × TimeEntryNormalized) →
    List ReconciledTimeEntry × List (String × TimeEntryNormalized)
  | [], d => ([], d)
  | z :: zs, d =>
    match scanCandidates cfg z d with
    | some (kid, k, true) =>
      let r := reconcileLoop cfg zs (eraseKey d kid)
      (⟨.MATCH, some z, some k⟩ :: r.1, r.2)
    | some (kid, k, false) =>
      let r := reconcileLoop cfg zs (eraseKey d kid)
      (⟨.CONFLICT, some z, some k⟩ :: r.1, r.2)
    | none =>
      let r := reconcileLoop cfg zs d
      (⟨.MISSING_IN_KIMAI, some z, none⟩ :: r.1, r.2)

/-- `ReconciliationService.reconcile_entries` (reconciler.py lines 127-184).
The remaining unmatched Kimai entries are appended as MISSING_IN_ZAMMAD
outcomes. -/
def reconcile_entries (cfg : Option RoundingConfig) (zs ks : List TimeEntryNormalized) :
    List ReconciledTimeEntry :=
  let r := reconcileLoop cfg zs (buildDict ks)
  r.1 ++ r.2.map (fun p => ⟨.MISSING_IN_ZAMMAD, none, some p.2⟩)

/-- An outcome for a Kimai-only entry (spec: ORPHAN). -/
def isOrphan (o : ReconciledTimeEntry) : Bool :=
  o.reconciliation_status == .MISSING_IN_ZAMMAD

/-- `models/mapping.py` `ActivityMapping` (the columns the sync service reads). -/
structure ActivityMapping where
  zammad_type_id : Int
  kimai_activity_id : Int
  is_active : Bool
  deriving DecidableEq

/-- The Kimai connector `settings` dict fields read by the sync service, typed as
declared in `schemas/connector.py` `KimaiConnectorConfig`. -/
structure KimaiSettings where
  default_activity_id : Option Int := none
  ignore_unmapped_activities : Bool := false
  deriving DecidableEq

/-- `models/conflict.py` `Conflict` rows as created through
`schemas/conflict.py` `ConflictCreate` (the sync service sets only
`conflict_type`, `zammad_data`, `kimai_data` and `notes`; `reason_code` keeps
its declared default OTHER and `resolution_status` its column default pending). -/
structure ConflictRow where
  conflict_type : String
  zammad_data : Option TimeEntryNormalized := none
  kimai_data : Option TimeEntryNormalized := none
  reason_code : String := "OTHER"
  resolution_status : String := "pending"
  notes : String := ""
  deriving DecidableEq

/-- The `stats` dict of `SyncService.sync_time_entries` (sync_service.py
lines 51-61; the counters mutated by the processing loop). -/
structure SyncStats where
  processed : Nat := 0
  created : Nat := 0
  conflicts : Nat := 0
  unmapped : Nat := 0
  deriving DecidableEq

/-- The two exception classes distinguished by the handlers at sync_service.py
lines 186-216: `ValueError` and any other `Exception`. -/
inductive SyncError where
  | valueError (msg : String)
  | unexpected (msg : String)
  deriving DecidableEq

/-- The external-collaborator effect of the MISSING_IN_KIMAI creation attempt
(sync_service.py lines 163-184: determine customer, ensure customer, ensure
project, create timesheet — all Kimai/Zammad API calls). A call either returns
the created timesheet id or raises. -/
def CreateAttempt : Type :=
  TimeEntryNormalized → Int → Except SyncError Nat

/-- Python `str` rendering of an optional integer inside an f-string
(`None` renders as the four characters None). -/
def optIntStr : Option Int → String
  | some n => toString n
  | none => "None"

/-- Activity resolution for a MISSING_IN_KIMAI entry (sync_service.py lines
120-146): first active mapping for the Zammad activity type, else the
connector's `default_activity_id` setting (used only if truthy, so an id of 0
counts as unconfigured), else unresolved. -/
def resolveActivity (cfg : KimaiSettings) (mps : List ActivityMapping)
    (z : TimeEntryNormalized) : Option Int :=
  let fromMapping : Option Int :=
    match z.activity_type_id with
    | some t =>
      (mps.find? (fun m => decide (m.zammad_type_id = t) && m.is_active)).map
        (fun m => m.kimai_activity_id)
    | none => none
  match fromMapping with
  | some a => some a
  | none =>
    match cfg.default_activity_id with
    | some d => if d ≠ 0 then some d else none
    | none => none

/-- The Conflict persisted for an unmapped activity (sync_service.py
lines 147-156). -/
def unmappedRow (z : TimeEntryNormalized) : ConflictRow :=
  { conflict_type := ReconciliationStatus.MISSING_IN_KIMAI.str
    zammad_data := some z
    kimai_data := none
    notes := "Unmapped activity type " ++ optIntStr z.activity_type_id ++
      "; configure mapping or set default_activity_id in Kimai connector settings" }

/-- The Conflict persisted when the creation attempt raises (sync_service.py
lines 186-216; the two handlers differ only in the notes prefix). -/
def failRow (z : TimeEntryNormalized) : SyncError → ConflictRow
  | .valueError m =>
    { conflict_type := ReconciliationStatus.MISSING_IN_KIMAI.str
      zammad_data := some z
      kimai_data := none
      notes := "Failed to create Kimai entry: " ++ m }
  | .unexpected m =>
    { conflict_type := ReconciliationStatus.MISSING_IN_KIMAI.str
      zammad_data := some z
      kimai_data := none
      notes := "Unexpected error: " ++ m }

/-- The Conflict persisted for a CONFLICT outcome (sync_service.py
lines 218-232). -/
def conflictRowBoth (o : ReconciledTimeEntry) : ConflictRow :=
  { conflict_type := ReconciliationStatus.CONFLICT.str
    zammad_data := o.zammad_entry
    kimai_data := o.kimai_entry
    notes := "Time entries exist in both systems but have differing details." }

/-- One iteration of the processing loop of `SyncService.sync_time_entries`
(sync_service.py lines 110-236), threading the stats dict and the conflicts
table. Every iteration increments `processed`. For a MISSING_IN_KIMAI outcome
whose reconciled record is absent the Python attribute access would fail; this
never arises for reconciler output and is modelled as a no-op. -/
def processOutcome (env : CreateAttempt) (cfg : KimaiSettings)
    (mps : List ActivityMapping) (acc : SyncStats × List ConflictRow)
    (o : ReconciledTimeEntry) : SyncStats × List ConflictRow :=
  let s := { acc.1 with processed := acc.1.processed + 1 }
  match o.reconciliation_status with
  | .MATCH => (s, acc.2)
  | .MISSING_IN_ZAMMAD => (s, acc.2)
  | .CONFLICT =>
    ({ s with conflicts := s.conflicts + 1 }, acc.2 ++ [conflictRowBoth o])
  | .MISSING_IN_KIMAI =>
    match o.zammad_entry with
    | none => (s, acc.2)
    | some z =>
      match resolveActivity cfg mps z with
      | none =>
        ({ s with conflicts := s.conflicts + 1, unmapped := s.unmapped + 1 },
         acc.2 ++ [unmappedRow z])
      | some aid =>
        match env z aid with
        | .ok _ => ({ s with created := s.created + 1 }, acc.2)
        | .error e =>
          ({ s with conflicts := s.conflicts + 1 }, acc.2 ++ [failRow z e])

/-- The processing phase of `SyncService.sync_time_entries` over the reconciled
outcomes, starting from fresh stats and the existing conflicts table `db`. -/
def sync_process (env : CreateAttempt) (cfg : KimaiSettings)
    (mps : List ActivityMapping) (db : List ConflictRow)
    (os : List ReconciledTimeEntry) : SyncStats × List ConflictRow :=
  os.foldl (processOutcome env cfg mps) ({}, db)

/-- The Conflict (if any) that processing a single outcome persists; mirrors the
branches of `processOutcome` record by record. -/
def conflictFor (env : CreateAttempt) (cfg : KimaiSettings)
    (mps : List ActivityMapping) (o : ReconciledTimeEntry) : Option ConflictRow :=
  match o.reconciliation_status with
  | .MATCH => none
  | .MISSING_IN_ZAMMAD => none
  | .CONFLICT => some (conflictRowBoth o)
  | .MISSING_IN_KIMAI =>
    match o.zammad_entry with
    | none => none
    | some z =>
      match resolveActivity cfg mps z with
      | none => some (unmappedRow z)
      | some aid =>
        match env z aid with
        | .ok _ => none
        | .error e => some (failRow z e)

/-! Timesheet creation (`SyncService._create_timesheet`, sync_service.py
lines 404-569). -/

/-- The first line of a string: the characters before the first newline
(`description.split(chr(10))[0]`). -/
def firstLine (s : String) : String :=
  ⟨s.data.takeWhile (fun c => c != '\n')⟩

/-- Python slicing `s[:n]` by characters. -/
def strTake (s : String) (n : Nat) : String :=
  ⟨s.data.take n⟩

/-- The identity marker (sync_service.py line 466):
`ZAM:T` + ticket id + `|TA:` + time accounting id. -/
def markerOf (e : TimeEntryNormalized) : String :=
  "ZAM:T" ++ optIntStr e.ticket_id ++ "|TA:" ++ e.source_id

/-- Ticket reference used in the description (line 469); Python `or` falls
through on an empty string. -/
def ticketRefOf (e : TimeEntryNormalized) : String :=
  match e.ticket_number with
  | some s => if s ≠ "" then s else "#" ++ optIntStr e.ticket_id
  | none => "#" ++ optIntStr e.ticket_id

/-- Python `x or default` for an optional string field. -/
def orDefault (s : Option String) (dflt : String) : String :=
  match s with
  | some v => if v ≠ "" then v else dflt
  | none => dflt

/-- The lines of the description after the marker line (sync_service.py
lines 475-480). -/
def descriptionTail (e : TimeEntryNormalized) : String :=
  let base :=
    "Ticket-" ++ ticketRefOf e ++ "\n" ++
    "Zammad Ticket ID: " ++ optIntStr e.ticket_id ++ "\n" ++
    "Time Accounting ID: " ++ e.source_id ++ "\n" ++
    "Customer: " ++ orDefault e.customer_name "Unknown Customer" ++ " - " ++
      orDefault e.org_name "-" ++ "\n"
  let title := orDefault e.ticket_title ""
  if title ≠ "" then base ++ "Title: " ++ title ++ "\n" else base

/-- The marker-prefixed description before truncation (lines 474-480):
the marker line followed by the remaining lines. -/
def descriptionRaw (e : TimeEntryNormalized) : String :=
  markerOf e ++ "\n" ++ descriptionTail e

/-- The description with the 500-character cap (lines 482-483). -/
def descriptionOf (e : TimeEntryNormalized) : String :=
  let d := descriptionRaw e
  if d.length > 500 then strTake d 497 ++ "..." else d

/-- The local begin timestamp of the timesheet (lines 436-453): the Zammad
`created_at` instant converted into the configured timezone, or the fallback of
09:00:00 on the entry date when `created_at` is missing (the unparseable-string
branch of the Python code collapses into the missing case in this embedding,
since parsed instants are the model of the field). -/
def beginLocalOf (tzOffset : Int → Int) (e : TimeEntryNormalized) : Int :=
  match e.created_at with
  | some t => t + tzOffset t
  | none => e.entry_date * 86400 + 9 * 3600

/-- The POST `/api/timesheets` payload built at lines 548-555. -/
structure TimesheetPayload where
  project : Int
  activity : Int
  beginT : Int
  endT : Int
  description : String
  tags : String := "source:zammad"
  deriving DecidableEq

/-- Result of `_create_timesheet`: a new timesheet was created, or an existing
one with the same marker was found (identical values: skip; diverging values:
conflict pseudo-response) — in both found cases nothing is created. -/
inductive CreateResult where
  | created (p : TimesheetPayload)
  | already (kimaiId : String)
  | diverged (kimaiId : String)
  deriving DecidableEq

def CreateResult.isCreated : CreateResult → Bool
  | .created _ => true
  | _ => false

/-- The ±7-day idempotency search window around the entry date
(lines 489-500): the Kimai fetch keeps timesheets whose begin timestamp lies
between 00:00:00 seven days before and 23:59:59 seven days after, i.e. whose
begin date is within seven days of the entry date. A record without a begin
timestamp cannot be range-filtered by the server and is not returned. -/
def inWindow (e : TimeEntryNormalized) (ts : TimeEntryNormalized) : Bool :=
  match ts.begin_time with
  | some b => decide (e.entry_date - 7 ≤ dateOf b) && decide (dateOf b ≤ e.entry_date + 7)
  | none => false

/-- `SyncService._create_timesheet` (lines 423-569) against the current target
state `target` (the timesheets the Kimai API would return): scan the fetched
window for the first timesheet whose description has as its first line the
marker; if found, skip creation (identical when the duration difference is
strictly below 60 s and the activity is equal, else a conflict pseudo-response);
otherwise create with begin from `beginLocalOf` and end = begin + duration. -/
def create_timesheet (tzOffset : Int → Int) (e : TimeEntryNormalized)
    (projectId activityId : Int) (target : List TimeEntryNormalized) : CreateResult :=
  let beginLocal := beginLocalOf tzOffset e
  let marker := markerOf e
  let window := target.filter (inWindow e)
  match window.find? (fun ts => firstLine ts.description == marker) with
  | some ts =>
    if decide ((ts.duration_sec - e.duration_sec).natAbs < 60) &&
       decide (ts.activity_type_id = some activityId) then
      .already ts.source_id
    else
      .diverged ts.source_id
  | none =>
    .created
      { project := projectId
        activity := activityId
        beginT := beginLocal
        endT := beginLocal + e.duration_sec
        description := descriptionOf e }

/-- The timesheet stored in Kimai for a created payload, as the next fetch
returns it: same description, activity and begin; the duration is
end − begin = the duration of the entry. -/
def storedEntryOf (tzOffset : Int → Int) (e : TimeEntryNormalized)
    (activityId : Int) : TimeEntryNormalized :=
  { source_id := "kimai-created"
    source := "kimai"
    description := descriptionOf e
    duration_sec := e.duration_sec
    activity_type_id := some activityId
    begin_time := some (beginLocalOf tzOffset e)
    entry_date := dateOf (beginLocalOf tzOffset e) }

/-- One creation pass over the MISSING_IN_KIMAI records: each created timesheet
is carried over into the target state seen by the subsequent records and by the
next pass. Returns the final target state and the number of created records. -/
def createPass (tzOffset : Int → Int) (aid : TimeEntryNormalized → Int)
    (projectId : Int) :
    List TimeEntryNormalized → List TimeEntryNormalized →
    List TimeEntryNormalized × Nat
  | [], target => (target, 0)
  | e :: rest, target =>
    match create_timesheet tzOffset e projectId (aid e) target with
    | .created _ =>
      let r := createPass tzOffset aid projectId rest
        (target ++ [storedEntryOf tzOffset e (aid e)])
      (r.1, r.2 + 1)
    | _ => createPass tzOffset aid projectId rest target

/-! Scheduler (`scheduler.py`). -/

/-- The schedule concurrency policy string (`skip` or `queue`). -/
inductive Policy where
  | skip
  | queue
  deriving DecidableEq

/-- The module-level concurrency state of scheduler.py lines 27-28: the
`running` guard flag and the bounded trigger queue (the queued values, wall
clock timestamps, are never read — only the length matters). -/
structure SchedState where
  running : Bool
  queue : Nat
  deriving DecidableEq

/-- Environment read by a job invocation: the enabled flag of the schedule and
whether active Zammad and Kimai connectors are configured. -/
structure SchedEnv where
  enabled : Bool
  connectorsOk : Bool
  deriving DecidableEq

/-- `scheduled_sync_job` (scheduler.py lines 31-153), including the `finally`
block, which runs on every exit path: it clears the running flag, and if the
queue is non-empty pops one trigger and re-invokes the job. The recursion
consumes one queued trigger per level; `fuel` bounds the depth (any value
above the queue length is exact). Returns the final state and the number of
sync passes started. A full pass (run record, fetch, processing) happens
between setting the flag and the `finally`; the invocation ends only after it
finishes or raises. -/
def scheduled_sync_job (env : SchedEnv) (policy : Policy) :
    Nat → SchedState → SchedState × Nat
  | 0, s => (s, 0)
  | fuel + 1, s =>
    -- try block (lines 40-141)
    let body : SchedState × Nat :=
      if ¬ env.enabled then (s, 0)
      else if policy = .skip ∧ s.running then (s, 0)
      else if policy = .queue ∧ s.running then
        if s.queue < 5 then ({ s with queue := s.queue + 1 }, 0) else (s, 0)
      else if ¬ env.connectorsOk then ({ s with running := false }, 0)
      else ({ s with running := true }, 1)
    -- finally block (lines 145-153)
    let s₂ : SchedState := { body.1 with running := false }
    if s₂.queue > 0 then
      let r := scheduled_sync_job env policy fuel { s₂ with queue := s₂.queue - 1 }
      (r.1, body.2 + r.2)
    else (s₂, body.2)

/-! Manual sync endpoint (`api/v1/endpoints/sync.py` `run_sync`,
lines 32-171) and the Sync Run record it creates. -/

/-- `models/sync_run.py` `SyncRun` (the columns relevant to run finalization). -/
structure SyncRunRec where
  trigger_type : String
  status : String
  entries_fetched : Nat := 0
  error_message : Option String := none
  deriving DecidableEq

/-- `run_sync` given the connector configuration state: the endpoint creates a
SyncRun in status running (lines 85-92) and then calls
`sync_service.sync_time_entries(start_d, end_d, sync_run, trigger_type="manual")`
(line 126). `SyncService.sync_time_entries` (sync_service.py line 42) accepts
only `(self, start_date, end_date)`, so the call raises `TypeError` before any
fetch; the generic handler at lines 155-171 returns a failed `SyncResponse`
without touching the run. No statement in the repository assigns the run a
terminal status or its `entries_fetched` counter, so the created row is
returned exactly as created. Returns the persisted run and the HTTP-level
response status string. -/
def run_sync (connectorsOk : Bool) : SyncRunRec × String :=
  if ¬ connectorsOk then
    ({ trigger_type := "manual", status := "failed",
       error_message := some "No active Zammad and Kimai connectors configured" },
     "400")
  else
    let syncRun : SyncRunRec := { trigger_type := "manual", status := "running" }
    (syncRun, "failed")

/-! Concrete instances used by counterexamples and witnesses. -/

/-- A fixed-offset instance of the timezone offset function (UTC+1). -/
def tzBrussels : Int → Int := fun _ => 3600

/-- A creation environment in which every attempt succeeds. -/
def envOk : CreateAttempt := fun _ _ => .ok 1

/-- A Zammad entry used in the reconciler examples. -/
def zC6 : TimeEntryNormalized :=
  { source_id := "z1", source := "zammad", ticket_number := some "100",
    duration_sec := 1000, entry_date := 0, begin_time := some 32400 }

/-- A Kimai entry that conflicts with `zC6` (same ticket and begin time,
duration 200 s apart). -/
def kC6a : TimeEntryNormalized :=
  { source_id := "k1", source := "kimai", ticket_number := some "100",
    duration_sec := 1200, entry_date := 0, begin_time := some 32400 }

/-- A Kimai entry that identity-matches `zC6` (same `source_id`). -/
def kC6b : TimeEntryNormalized :=
  { source_id := "z1", source := "kimai", ticket_number := some "100",
    duration_sec := 1000, entry_date := 0, begin_time := some 32400 }

/-- Two distinct Kimai entries sharing one `source_id`. -/
def kC5a : TimeEntryNormalized :=
  { source_id := "dup", source := "kimai", description := "first" }

/-- See `kC5a`. -/
def kC5b : TimeEntryNormalized :=
  { source_id := "dup", source := "kimai", description := "second" }

/-- Nearest-15-minutes rounding on begin and duration, applicable every day. -/
def cfg15 : RoundingConfig :=
  { rounding_mode := .closest, round_begin := 15, round_end := 15, round_duration := 15 }

/-- Source record with begin 09:07:00 and duration 932 s (day 0). -/
def zC7 : TimeEntryNormalized :=
  { source_id := "z9", source := "zammad", ticket_number := some "42",
    duration_sec := 932, entry_date := 0, begin_time := some (9 * 3600 + 7 * 60) }

/-- Target record with begin 09:00:00 and duration 900 s (day 0). -/
def kC7 : TimeEntryNormalized :=
  { source_id := "k9", source := "kimai", ticket_number := some "42",
    duration_sec := 900, entry_date := 0, begin_time := some (9 * 3600) }

/-- A Zammad entry whose activity type 99 has no mapping. -/
def zC8 : TimeEntryNormalized :=
  { source_id := "z8", source := "zammad", activity_type_id := some 99, entry_date := 0 }

/-- A MISSING_IN_KIMAI outcome for `zC8`. -/
def oC8 : ReconciledTimeEntry :=
  { reconciliation_status := .MISSING_IN_KIMAI, zammad_entry := some zC8 }

/-- A CONFLICT outcome for the pair `zC6` / `kC6a`. -/
def oC4 : ReconciledTimeEntry :=
  { reconciliation_status := .CONFLICT, zammad_entry := some zC6, kimai_entry := some kC6a }

/-- A Zammad entry without a creation timestamp, entry date on day 5. -/
def eC9 : TimeEntryNormalized :=
  { source_id := "31", source := "zammad", ticket_id := some 12,
    entry_date := 5, duration_sec := 600, created_at := none }

/-- A Zammad entry with a creation timestamp (UTC second 1000). -/
def eC9b : TimeEntryNormalized :=
  { source_id := "32", source := "zammad", ticket_id := some 12,
    entry_date := 0, duration_sec := 600, created_at := some 1000 }

/-- The payload `_create_timesheet` builds for `eC9b` under `tzBrussels`. -/
def pC9b : TimesheetPayload :=
  { project := 3, activity := 7, beginT := 1000 + 3600,
    endT := 1000 + 3600 + 600, description := descriptionOf eC9b }

/-- A well-formed Zammad entry for the idempotency witness. -/
def eC1 : TimeEntryNormalized :=
  { source_id := "2", source := "zammad", ticket_id := some 1,
    ticket_number := some "1", duration_sec := 600, entry_date := 0,
    created_at := some 0 }

/-- A constant activity resolution for the idempotency witness. -/
def aidC1 : TimeEntryNormalized → Int := fun _ => 7

/-- Well-formedness of an entry for the idempotency argument: its marker
contains no newline and fits inside the 497-character truncation bound, and the
begin timestamp of a record created for it falls inside the ±7-day search
window around its entry date. All connector-produced entries satisfy this. -/
def Wf (tz : Int → Int) (e : TimeEntryNormalized) : Prop :=
  '\n' ∉ (markerOf e).data ∧ (markerOf e).length + 1 ≤ 497 ∧
  e.entry_date - 7 ≤ dateOf (beginLocalOf tz e) ∧
  dateOf (beginLocalOf tz e) ≤ e.entry_date + 7

instance (tz : Int → Int) (e : TimeEntryNormalized) : Decidable (Wf tz e) := by
  unfold Wf; infer_instance

/-! Helper lemmas. -/

theorem strData_append (s t : String) : (s ++ t).data = s.data ++ t.data := by
  cases s; cases t; rfl

theorem processOutcome_processed (env : CreateAttempt) (cfg : KimaiSettings)
    (mps : List ActivityMapping) (acc : SyncStats × List ConflictRow)
    (o : ReconciledTimeEntry) :
    (processOutcome env cfg mps acc o).1.processed = acc.1.processed + 1 := by
  unfold processOutcome
  repeat' split
  all_goals rfl

theorem processOutcome_conflicts (env : CreateAttempt) (cfg : KimaiSettings)
    (mps : List ActivityMapping) (acc : SyncStats × List ConflictRow)
    (o : ReconciledTimeEntry) :
    (processOutcome env cfg mps acc o).2 =
      acc.2 ++ (conflictFor env cfg mps o).toList := by
  unfold processOutcome conflictFor
  repeat' split
  all_goals simp_all

theorem sync_loop_processed (env : CreateAttempt) (cfg : KimaiSettings)
    (mps : List ActivityMapping) (os : List ReconciledTimeEntry) :
    ∀ acc : SyncStats × List ConflictRow,
      (os.foldl (processOutcome env cfg mps) acc).1.processed =
        acc.1.processed + os.length := by
  induction os with
  | nil => intro acc; simp
  | cons o os ih =>
    intro acc
    rw [List.foldl_cons, ih, processOutcome_processed]
    simp [Nat.add_assoc, Nat.add_comm 1 os.length]

theorem sync_loop_conflicts (env : CreateAttempt) (cfg : KimaiSettings)
    (mps : List ActivityMapping) (os : List ReconciledTimeEntry) :
    ∀ acc : SyncStats × List ConflictRow,
      (os.foldl (processOutcome env cfg mps) acc).2 =
        acc.2 ++ os.filterMap (conflictFor env cfg mps) := by
  induction os with
  | nil => intro acc; simp
  | cons o os ih =>
    intro acc
    rw [List.foldl_cons, ih, processOutcome_conflicts, List.filterMap_cons]
    cases h : conflictFor env cfg mps o <;> simp [h]

/-! Claim theorems. -/

/-- C3: during the processing loop, an exception while provisioning or creating
one MISSING record converts exactly that record into exactly one persisted
Conflict and never aborts the pass: the conflicts written for a batch are the
per-record conflicts in batch order (no record influences another, no failure
stops the fold), the processed count equals the total number of reconciled
outcomes, and a single failing MISSING record contributes exactly its one
failure Conflict. -/
theorem claim3_failure_isolation (env : CreateAttempt) (cfg : KimaiSettings)
    (mps : List ActivityMapping) (db : List ConflictRow)
    (os : List ReconciledTimeEntry) :
    (sync_process env cfg mps db os).1.processed = os.length ∧
    (sync_process env cfg mps db os).2 = db ++ os.filterMap (conflictFor env cfg mps) ∧
    (∀ o : ReconciledTimeEntry, ∀ z a err,
      o.reconciliation_status = .MISSING_IN_KIMAI → o.zammad_entry = some z →
      resolveActivity cfg mps z = some a → env z a = .error err →
      conflictFor env cfg mps o = some (failRow z err)) := by
  refine ⟨?_, ?_, ?_⟩
  · rw [sync_process, sync_loop_processed]; simp
  · rw [sync_process, sync_loop_conflicts]
  · intro o z a err hst hz hr he
    simp [conflictFor, hst, hz, hr, he]

/-- C3 witness: a batch with one failing MISSING record and one succeeding
MISSING record, evaluated concretely. -/
theorem claim3_witness :
    (sync_process (fun e _ => if e.source_id = "z8" then .error (.valueError "boom")
        else .ok 1)
      { default_activity_id := some 7 } [] [] [oC8,
        { reconciliation_status := .MISSING_IN_KIMAI, zammad_entry := some eC1 }]).1.processed
      = 2 ∧
    conflictFor (fun (e : TimeEntryNormalized) (_ : Int) =>
        if e.source_id = "z8" then Except.error (.valueError "boom") else Except.ok 1)
      { default_activity_id := some 7 } [] oC8 = some (failRow zC8 (.valueError "boom")) := by
  constructor
  · exact (claim3_failure_isolation _ _ _ _ _).1
  · exact (claim3_failure_isolation
      (fun (e : TimeEntryNormalized) (_ : Int) =>
        if e.source_id = "z8" then Except.error (.valueError "boom") else Except.ok 1)
      { default_activity_id := some 7 } [] [] []).2.2 oC8 zC8 7 (.valueError "boom")
      rfl rfl rfl rfl

/-- C8: the claim is right and the code is wrong. The `ignore_unmapped_activities`
setting declared in `schemas/connector.py` (whose own comment says skip instead
of conflict) is never read by the sync service: for a record whose activity has
no mapping and no default, processing persists one Conflict regardless of the
flag, and that Conflict carries reason code OTHER, not UNMAPPED_ACTIVITY (the
taxonomy constant exists in `constants/conflict_reasons.py` but is unused in
this path). -/
theorem claim8_ignore_unmapped_never_read (b : Bool) :
    (sync_process envOk { default_activity_id := none, ignore_unmapped_activities := b }
        [] [] [oC8]).2 = [unmappedRow zC8] ∧
    (sync_process envOk { default_activity_id := none, ignore_unmapped_activities := b }
        [] [] [oC8]).1.conflicts = 1 ∧
    (sync_process envOk { default_activity_id := none, ignore_unmapped_activities := b }
        [] [] [oC8]).1.unmapped = 1 ∧
    (sync_process envOk { default_activity_id := none, ignore_unmapped_activities := b }
        [] [] [oC8]).1.created = 0 ∧
    (unmappedRow zC8).reason_code = "OTHER" ∧
    (unmappedRow zC8).resolution_status = "pending" := by
  cases b <;> exact ⟨rfl, rfl, rfl, rfl, rfl, rfl⟩

/-- C4 counterexample: submitting the same conflicting pair across two passes
(the second pass starting from the conflicts table the first pass produced)
yields two pending Conflict rows, not one — no deduplication check exists
before persisting. -/
theorem claim4_counterexample :
    ((sync_process envOk {} [] ((sync_process envOk {} [] [] [oC4]).2) [oC4]).2.filter
        (fun c => c.resolution_status == "pending")).length = 2 ∧
    ¬ ((sync_process envOk {} [] ((sync_process envOk {} [] [] [oC4]).2) [oC4]).2.filter
        (fun c => c.resolution_status == "pending")).length = 1 := by
  constructor <;> decide

/-- C4 amended: the pipeline performs no duplicate check before persisting a
Conflict; each pass appends one new pending Conflict row unconditionally, so
the same conflicting pair submitted across two passes yields exactly two
identical pending Conflict rows. -/
theorem claim4_no_dedup_two_rows (env : CreateAttempt) (cfg : KimaiSettings)
    (mps : List ActivityMapping) (o : ReconciledTimeEntry)
    (h : o.reconciliation_status = .CONFLICT) :
    (sync_process env cfg mps ((sync_process env cfg mps [] [o]).2) [o]).2 =
      [conflictRowBoth o, conflictRowBoth o] ∧
    ∀ c ∈ (sync_process env cfg mps ((sync_process env cfg mps [] [o]).2) [o]).2,
      c.resolution_status = "pending" := by
  have hrow : ∀ db : List ConflictRow,
      (sync_process env cfg mps db [o]).2 = db ++ [conflictRowBoth o] := by
    intro db
    simp [sync_process, processOutcome, h]
  constructor
  · rw [hrow, hrow]; rfl
  · intro c hc
    rw [hrow, hrow] at hc
    have hce : c = conflictRowBoth o := by simpa using hc
    rw [hce]
    rfl

/-- C4 amended witness: the two-row outcome at the concrete conflicting pair. -/
theorem claim4_witness :
    (sync_process envOk {} [] ((sync_process envOk {} [] [] [oC4]).2) [oC4]).2 =
      [conflictRowBoth oC4, conflictRowBoth oC4] :=
  (claim4_no_dedup_two_rows envOk {} [] oC4 rfl).1

/-- C2: the claim is right and the code is wrong. A manual sync pass with both
connectors active creates its Sync Run in status running, but
`SyncService.sync_time_entries` accepts only (start_date, end_date) while the
endpoint passes the run and a trigger type, so the call raises before any
fetch, the generic handler returns a failed response, and no code path ever
finalizes the run: it stays in status running forever with entries_fetched 0
instead of ending completed or failed with entries_fetched equal to the two
fetch counts. -/
theorem claim2_run_never_finalized :
    (run_sync true).1.status = "running" ∧
    (run_sync true).1.status ≠ "completed" ∧
    (run_sync true).1.status ≠ "failed" ∧
    (run_sync true).1.entries_fetched = 0 ∧
    (run_sync true).2 = "failed" := by
  refine ⟨rfl, ?_, ?_, rfl, rfl⟩ <;> decide

/-- C10: the claim is right and the code is wrong. The `finally` block of
`scheduled_sync_job` runs on every exit path, including the early return that
enqueues a trigger under the queue policy: that same invocation then clears the
running guard, pops the just-queued trigger and starts a new pass immediately,
while the original pass is still active — not upon its completion. Trace, from
the state where a pass holds the guard and the queue is empty: under queue
policy one new pass starts at once and the queue ends empty; under skip policy
the trigger starts no pass but still resets the guard to false. -/
theorem claim10_finally_breaks_concurrency :
    scheduled_sync_job ⟨true, true⟩ .queue 2 ⟨true, 0⟩ = (⟨false, 0⟩, 1) ∧
    scheduled_sync_job ⟨true, true⟩ .skip 2 ⟨true, 0⟩ = (⟨false, 0⟩, 0) := by
  constructor <;> decide

/-- C9 counterexample: for a source record without a creation timestamp the
engine still creates a target record, with the synthetic begin time 09:00:00 on
the entry date (day 5 here: second 5·86400 + 9·3600, whose time of day is
09:00:00), contradicting that a synthetic fixed hour is never used. -/
theorem claim9_counterexample :
    eC9.created_at = none ∧
    create_timesheet tzBrussels eC9 3 7 [] =
      .created { project := 3, activity := 7, beginT := 5 * 86400 + 9 * 3600,
                 endT := 5 * 86400 + 9 * 3600 + 600,
                 description := descriptionOf eC9 } ∧
    (5 * 86400 + 9 * 3600) % 86400 = 9 * 3600 := by
  refine ⟨rfl, ?_, by decide⟩
  rfl

/-- C9 amended: for every record the engine creates, the end timestamp equals
begin plus the record duration; when the source record carries a creation
timestamp the begin timestamp is that instant converted into the configured
timezone; when the creation timestamp is missing (or unparseable) the code
falls back to the synthetic begin time 09:00:00 on the entry date. -/
theorem claim9_begin_end_computation (tz : Int → Int) (e : TimeEntryNormalized)
    (pid aid : Int) (target : List TimeEntryNormalized) (p : TimesheetPayload)
    (h : create_timesheet tz e pid aid target = .created p) :
    p.endT = p.beginT + e.duration_sec ∧
    (∀ t, e.created_at = some t → p.beginT = t + tz t) ∧
    (e.created_at = none → p.beginT = e.entry_date * 86400 + 9 * 3600) := by
  simp only [create_timesheet] at h
  split at h
  · split at h <;> simp_all
  · rw [CreateResult.created.injEq] at h
    subst h
    refine ⟨rfl, ?_, ?_⟩
    · intro t ht; simp [beginLocalOf, ht]
    · intro h0; simp [beginLocalOf, h0]

/-- C9 amended witness: the computation at a concrete record with a creation
timestamp. -/
theorem claim9_witness :
    pC9b.endT = pC9b.beginT + eC9b.duration_sec ∧
    (∀ t, eC9b.created_at = some t → pC9b.beginT = t + tzBrussels t) ∧
    (eC9b.created_at = none → pC9b.beginT = eC9b.entry_date * 86400 + 9 * 3600) :=
  claim9_begin_end_computation tzBrussels eC9b 3 7 [] pC9b (by rfl)

/-- C7: with a nearest-15-minutes rounding rule on begin and duration, the
source record (begin 09:07:00, duration 932 s) rounds to begin 09:00:00 and
duration 900 s, and the reconciler classifies the pair with the target record
(begin 09:00:00, duration 900 s, same ticket) as MATCH, not CONFLICT. -/
theorem claim7_rounding_aware_match :
    apply_rounding_rules cfg15 (9 * 3600 + 7 * 60) 932 0 = (9 * 3600, 900) ∧
    (reconcile_entries (some cfg15) [zC7] [kC7]).map
      (fun o => o.reconciliation_status) = [.MATCH] := by
  constructor <;> decide

theorem scanCandidates_spec (cfg : Option RoundingConfig) (z : TimeEntryNormalized) :
    ∀ (d : List (String × TimeEntryNormalized)) (kid : String)
      (k : TimeEntryNormalized) (b : Bool),
      scanCandidates cfg z d = some (kid, k, b) →
      (kid, k) ∈ d ∧
      (b = true → is_exact_match cfg z k = true) ∧
      (b = false → is_conflict z k = true ∧ is_exact_match cfg z k = false) := by
  intro d
  induction d with
  | nil => intro kid k b h; simp [scanCandidates] at h
  | cons p rest ih =>
    obtain ⟨pk, pv⟩ := p
    intro kid k b h
    rw [scanCandidates] at h
    split at h
    · rename_i hm
      simp only [Option.some.injEq, Prod.mk.injEq] at h
      obtain ⟨h1, h2, h3⟩ := h
      subst h1; subst h2; subst h3
      exact ⟨List.mem_cons_self _ _, fun _ => hm, fun hf => by simp at hf⟩
    · split at h
      · rename_i hm hc
        simp only [Option.some.injEq, Prod.mk.injEq] at h
        obtain ⟨h1, h2, h3⟩ := h
        subst h1; subst h2; subst h3
        refine ⟨List.mem_cons_self _ _, fun hf => by simp at hf,
          fun _ => ⟨hc, ?_⟩⟩
        simpa using hm
      · have hres := ih kid k b h
        exact ⟨List.mem_cons_of_mem _ hres.1, hres.2.1, hres.2.2⟩

theorem reconcileLoop_mem_spec (cfg : Option RoundingConfig) :
    ∀ (zs : List TimeEntryNormalized) (d : List (String × TimeEntryNormalized))
      (o : ReconciledTimeEntry), o ∈ (reconcileLoop cfg zs d).1 →
      (o.reconciliation_status = .CONFLICT →
        ∃ z k, o.zammad_entry = some z ∧ o.kimai_entry = some k ∧
          is_conflict z k = true ∧ is_exact_match cfg z k = false) ∧
      (o.reconciliation_status = .MATCH →
        ∃ z k, o.zammad_entry = some z ∧ o.kimai_entry = some k ∧
          is_exact_match cfg z k = true) := by
  intro zs
  induction zs with
  | nil => intro d o ho; simp [reconcileLoop] at ho
  | cons z zs ih =>
    intro d o ho
    rw [reconcileLoop] at ho
    cases hscan : scanCandidates cfg z d with
    | none =>
      rw [hscan] at ho
      simp only [List.mem_cons] at ho
      rcases ho with rfl | ho
      · exact ⟨fun hst => by simp at hst, fun hst => by simp at hst⟩
      · exact ih d o ho
    | some trip =>
      obtain ⟨kid, k, b⟩ := trip
      rw [hscan] at ho
      cases b with
      | true =>
        simp only [List.mem_cons] at ho
        rcases ho with rfl | ho
        · refine ⟨fun hst => by simp at hst, fun _ => ⟨z, k, rfl, rfl, ?_⟩⟩
          exact (scanCandidates_spec cfg z d kid k true hscan).2.1 rfl
        · exact ih _ o ho
      | false =>
        simp only [List.mem_cons] at ho
        rcases ho with rfl | ho
        · refine ⟨fun _ => ⟨z, k, rfl, rfl, ?_, ?_⟩, fun hst => by simp at hst⟩
          · exact ((scanCandidates_spec cfg z d kid k false hscan).2.2 rfl).1
          · exact ((scanCandidates_spec cfg z d kid k false hscan).2.2 rfl).2
        · exact ih _ o ho

/-- C6 amended: the reconciler scans the remaining target records in order and,
for each candidate, evaluates the match rules before the conflict rules; the
first candidate to fire either set wins. Hence a source record is never
classified CONFLICT against a target that itself satisfies a match rule (and
every MATCH outcome links a target satisfying a match rule), but a source
record can be classified CONFLICT against an earlier-scanned candidate even
when a later remaining target would match. -/
theorem claim6_match_before_conflict_per_candidate (cfg : Option RoundingConfig)
    (zs ks : List TimeEntryNormalized) :
    ∀ o ∈ reconcile_entries cfg zs ks,
      (o.reconciliation_status = .CONFLICT →
        ∃ z k, o.zammad_entry = some z ∧ o.kimai_entry = some k ∧
          is_conflict z k = true ∧ is_exact_match cfg z k = false) ∧
      (o.reconciliation_status = .MATCH →
        ∃ z k, o.zammad_entry = some z ∧ o.kimai_entry = some k ∧
          is_exact_match cfg z k = true) := by
  intro o ho
  rw [reconcile_entries] at ho
  rcases List.mem_append.mp ho with h | h
  · exact reconcileLoop_mem_spec cfg zs _ o h
  · obtain ⟨p, hp, rfl⟩ := List.mem_map.mp h
    exact ⟨fun hst => by simp at hst, fun hst => by simp at hst⟩

/-- C6 amended witness: the concrete conflict outcome of the counterexample
batch, with its linked target failing every match rule. -/
theorem claim6_witness :
    ∃ z k, (⟨.CONFLICT, some zC6, some kC6a⟩ : ReconciledTimeEntry).zammad_entry = some z ∧
      (⟨.CONFLICT, some zC6, some kC6a⟩ : ReconciledTimeEntry).kimai_entry = some k ∧
      is_conflict z k = true ∧ is_exact_match none z k = false :=
  (claim6_match_before_conflict_per_candidate none [zC6] [kC6a, kC6b]
    ⟨.CONFLICT, some zC6, some kC6a⟩ (by decide)).1 rfl

/-- C6 counterexample: the source record `zC6` has a matching target (`kC6b`,
identity match) among the remaining target records, yet the reconciler
classifies it CONFLICT, because the earlier-scanned candidate `kC6a` fires the
conflict rule first — the claim that such a source record is never classified
CONFLICT is false. -/
theorem claim6_counterexample :
    is_exact_match none zC6 kC6b = true ∧
    (reconcile_entries none [zC6] [kC6a, kC6b]).map
      (fun o => o.reconciliation_status) = [.CONFLICT, .MISSING_IN_ZAMMAD] := by
  constructor <;> decide

theorem insertOrReplace_of_fresh (d : List (String × TimeEntryNormalized))
    (key : String) (v : TimeEntryNormalized) (h : ∀ p ∈ d, p.1 ≠ key) :
    insertOrReplace d key v = d ++ [(key, v)] := by
  unfold insertOrReplace
  have hf : (d.any (fun p => p.1 == key)) = false := by
    rw [← Bool.not_eq_true, List.any_eq_true]
    rintro ⟨p, hp, hpe⟩
    exact h p hp (by simpa using hpe)
  rw [hf]
  simp

theorem buildDict_go (ks : List TimeEntryNormalized) :
    ∀ d, (ks.map (fun e => e.source_id)).Nodup →
      (∀ e ∈ ks, ∀ p ∈ d, p.1 ≠ e.source_id) →
      ks.foldl (fun d e => insertOrReplace d e.source_id e) d =
        d ++ ks.map (fun e => (e.source_id, e)) := by
  induction ks with
  | nil => intro d _ _; simp
  | cons e ks ih =>
    intro d hnd hdisj
    simp only [List.map_cons, List.nodup_cons] at hnd
    rw [List.foldl_cons,
      insertOrReplace_of_fresh d _ _ (fun p hp => hdisj e (List.mem_cons_self _ _) p hp),
      ih (d ++ [(e.source_id, e)]) hnd.2 ?_]
    · simp
    · intro e' he' p hp
      rcases List.mem_append.mp hp with hp | hp
      · exact hdisj e' (List.mem_cons_of_mem _ he') p hp
      · simp only [List.mem_singleton] at hp
        subst hp
        intro hcontra
        apply hnd.1
        have hc2 : e.source_id = e'.source_id := hcontra
        rw [hc2]
        exact List.mem_map.mpr ⟨e', he', rfl⟩

theorem buildDict_eq (ks : List TimeEntryNormalized)
    (h : (ks.map (fun e => e.source_id)).Nodup) :
    buildDict ks = ks.map (fun e => (e.source_id, e)) := by
  have := buildDict_go ks [] h (by simp)
  simpa [buildDict] using this

theorem eraseKey_nodup_keys (d : List (String × TimeEntryNormalized)) (kid : String)
    (hnd : (d.map Prod.fst).Nodup) : ((eraseKey d kid).map Prod.fst).Nodup :=
  hnd.sublist ((List.filter_sublist d).map Prod.fst)

theorem eraseKey_perm (d : List (String × TimeEntryNormalized)) (kid : String)
    (k : TimeEntryNormalized) (hnd : (d.map Prod.fst).Nodup) (hmem : (kid, k) ∈ d) :
    List.Perm (d.map Prod.snd) (k :: (eraseKey d kid).map Prod.snd) := by
  induction d with
  | nil => cases hmem
  | cons p d ih =>
    simp only [List.map_cons, List.nodup_cons] at hnd
    rcases List.mem_cons.mp hmem with heq | hmem'
    · subst heq
      have herase : eraseKey ((kid, k) :: d) kid = d := by
        unfold eraseKey
        rw [List.filter_cons]
        rw [if_neg (by simp)]
        apply List.filter_eq_self.mpr
        intro q hq
        have : q.1 ≠ kid := by
          intro hc
          exact hnd.1 (hc ▸ List.mem_map.mpr ⟨q, hq, rfl⟩)
        simpa using this
      rw [herase]
      exact List.Perm.refl _
    · have hpk : (p.1 != kid) = true := by
        have : p.1 ≠ kid := by
          intro hc
          apply hnd.1
          rw [hc]
          exact List.mem_map.mpr ⟨(kid, k), hmem', rfl⟩
        simpa using this
      have herase : eraseKey (p :: d) kid = p :: eraseKey d kid := by
        unfold eraseKey
        rw [List.filter_cons, if_pos hpk]
      rw [herase, List.map_cons, List.map_cons]
      exact (List.Perm.cons p.2 (ih hnd.2 hmem')).trans (List.Perm.swap k p.2 _)

theorem filterMap_some_snd (l : List (String × TimeEntryNormalized)) :
    l.filterMap (fun p => some p.2) = l.map Prod.snd := by
  induction l <;> simp_all

theorem reconcileLoop_shape (cfg : Option RoundingConfig) :
    ∀ (zs : List TimeEntryNormalized) (d : List (String × TimeEntryNormalized)),
      ((reconcileLoop cfg zs d).1).map (fun o => (o.zammad_entry, isOrphan o)) =
        zs.map (fun z => (some z, false)) := by
  intro zs
  induction zs with
  | nil => intro d; simp [reconcileLoop]
  | cons z zs ih =>
    intro d
    rw [reconcileLoop]
    cases hscan : scanCandidates cfg z d with
    | none =>
      dsimp only
      rw [List.map_cons, ih, List.map_cons]
      rfl
    | some trip =>
      obtain ⟨kid, k, b⟩ := trip
      cases b <;>
        (dsimp only
         rw [List.map_cons, ih, List.map_cons]
         rfl)


theorem filterMap_kimai_cons (o : ReconciledTimeEntry) (k : TimeEntryNormalized)
    (l : List ReconciledTimeEntry) (h : o.kimai_entry = some k) :
    (o :: l).filterMap (fun x => x.kimai_entry) =
      k :: l.filterMap (fun x => x.kimai_entry) := by
  rw [List.filterMap_cons, h]

theorem reconcileLoop_perm (cfg : Option RoundingConfig) :
    ∀ (zs : List TimeEntryNormalized) (d : List (String × TimeEntryNormalized)),
      (d.map Prod.fst).Nodup →
      List.Perm
        (((reconcileLoop cfg zs d).1.filterMap (fun o => o.kimai_entry)) ++
          ((reconcileLoop cfg zs d).2.map Prod.snd))
        (d.map Prod.snd) := by
  intro zs
  induction zs with
  | nil => intro d _; simp [reconcileLoop]
  | cons z zs ih =>
    intro d hnd
    rw [reconcileLoop]
    cases hscan : scanCandidates cfg z d with
    | none =>
      dsimp only
      rw [List.filterMap_cons]
      exact ih d hnd
    | some trip =>
      obtain ⟨kid, k, b⟩ := trip
      have hmem := (scanCandidates_spec cfg z d kid k b hscan).1
      have hperm := eraseKey_perm d kid k hnd hmem
      have hnd' := eraseKey_nodup_keys d kid hnd
      cases b <;>
        (dsimp only
         rw [filterMap_kimai_cons _ k _ rfl, List.cons_append]
         exact (List.Perm.cons k (ih (eraseKey d kid) hnd')).trans hperm.symm)

/-- C5 amended: provided the target records carry pairwise-distinct source ids
(true of any real Kimai fetch, where the id is the timesheet primary key),
reconcile consumes every source record exactly once and in order (the
non-ORPHAN outcomes carry exactly the source records), uses every target record
exactly once overall (the targets linked to MATCH/CONFLICT outcomes together
with the ORPHAN targets are a permutation of the input targets, so a matched or
conflicted target is removed from further consideration and each remaining
target yields exactly one ORPHAN), and the output length is the number of
source records plus the number of unmatched target records. Without the
distinct-id proviso the claim fails, because the target dict collapses
duplicate ids. -/
theorem claim5_consume_link_orphan (cfg : Option RoundingConfig)
    (zs ks : List TimeEntryNormalized)
    (h : (ks.map (fun e => e.source_id)).Nodup) :
    ((reconcile_entries cfg zs ks).filter (fun o => ! isOrphan o)).map
        (fun o => o.zammad_entry) = zs.map some ∧
    List.Perm ((reconcile_entries cfg zs ks).filterMap (fun o => o.kimai_entry)) ks ∧
    (reconcile_entries cfg zs ks).length =
      zs.length + ((reconcile_entries cfg zs ks).filter isOrphan).length := by
  have hbd : buildDict ks = ks.map (fun e => (e.source_id, e)) := buildDict_eq ks h
  have hndk : ((buildDict ks).map Prod.fst).Nodup := by
    rw [hbd, List.map_map]
    exact h
  have hshape := reconcileLoop_shape cfg zs (buildDict ks)
  have hallsrc : ∀ o ∈ (reconcileLoop cfg zs (buildDict ks)).1, isOrphan o = false := by
    intro o ho
    have hmem : (o.zammad_entry, isOrphan o) ∈
        zs.map (fun z => ((some z : Option TimeEntryNormalized), false)) := by
      rw [← hshape]
      exact List.mem_map.mpr ⟨o, ho, rfl⟩
    obtain ⟨z, _, hz⟩ := List.mem_map.mp hmem
    exact (congrArg Prod.snd hz).symm
  have hout : reconcile_entries cfg zs ks =
      (reconcileLoop cfg zs (buildDict ks)).1 ++
        ((reconcileLoop cfg zs (buildDict ks)).2).map
          (fun p => ⟨.MISSING_IN_ZAMMAD, none, some p.2⟩) := rfl
  have hfilterL : (reconcileLoop cfg zs (buildDict ks)).1.filter
      (fun o => ! isOrphan o) = (reconcileLoop cfg zs (buildDict ks)).1 := by
    apply List.filter_eq_self.mpr
    intro o ho
    rw [hallsrc o ho]
    rfl
  have hfilterR : (((reconcileLoop cfg zs (buildDict ks)).2).map
      (fun p => (⟨.MISSING_IN_ZAMMAD, none, some p.2⟩ : ReconciledTimeEntry))).filter
      (fun o => ! isOrphan o) = [] := by
    apply List.filter_eq_nil_iff.mpr
    intro o ho
    obtain ⟨p, _, rfl⟩ := List.mem_map.mp ho
    simp [isOrphan]
  have hsrc : (reconcileLoop cfg zs (buildDict ks)).1.map (fun o => o.zammad_entry) =
      zs.map some := by
    have hc := congrArg (List.map Prod.fst) hshape
    rw [List.map_map, List.map_map] at hc
    exact hc
  have hlenL : (reconcileLoop cfg zs (buildDict ks)).1.length = zs.length := by
    have hc := congrArg List.length hshape
    rw [List.length_map, List.length_map] at hc
    exact hc
  have horph : (((reconcileLoop cfg zs (buildDict ks)).2).map
      (fun p => (⟨.MISSING_IN_ZAMMAD, none, some p.2⟩ : ReconciledTimeEntry))).filterMap
      (fun o => o.kimai_entry) =
      ((reconcileLoop cfg zs (buildDict ks)).2).map Prod.snd := by
    rw [List.filterMap_map]
    exact filterMap_some_snd _
  have hks : ((buildDict ks).map Prod.snd) = ks := by
    rw [hbd, List.map_map]
    exact List.map_id ks
  refine ⟨?_, ?_, ?_⟩
  · rw [hout, List.filter_append, hfilterL, hfilterR, List.append_nil, hsrc]
  · rw [hout, List.filterMap_append, horph]
    have hp := reconcileLoop_perm cfg zs (buildDict ks) hndk
    rw [hks] at hp
    exact hp
  · have hfR : (((reconcileLoop cfg zs (buildDict ks)).2).map
        (fun p => (⟨.MISSING_IN_ZAMMAD, none, some p.2⟩ : ReconciledTimeEntry))).filter
        isOrphan =
        (((reconcileLoop cfg zs (buildDict ks)).2).map
          (fun p => (⟨.MISSING_IN_ZAMMAD, none, some p.2⟩ : ReconciledTimeEntry))) := by
      apply List.filter_eq_self.mpr
      intro o ho
      obtain ⟨p, _, rfl⟩ := List.mem_map.mp ho
      rfl
    have hfL : (reconcileLoop cfg zs (buildDict ks)).1.filter isOrphan = [] := by
      apply List.filter_eq_nil_iff.mpr
      intro o ho
      rw [hallsrc o ho]
      exact Bool.false_ne_true
    rw [hout, List.length_append, List.filter_append, hfL, hfR, List.nil_append,
      hlenL]

/-- C5 amended witness: the amended statement at a concrete batch with
distinct target source ids. -/
theorem claim5_witness :
    ((reconcile_entries none [zC6] [kC6a, kC6b]).filter (fun o => ! isOrphan o)).map
        (fun o => o.zammad_entry) = [zC6].map some ∧
    List.Perm ((reconcile_entries none [zC6] [kC6a, kC6b]).filterMap
        (fun o => o.kimai_entry)) [kC6a, kC6b] ∧
    (reconcile_entries none [zC6] [kC6a, kC6b]).length =
      ([zC6] : List TimeEntryNormalized).length +
        ((reconcile_entries none [zC6] [kC6a, kC6b]).filter isOrphan).length :=
  claim5_consume_link_orphan none [zC6] [kC6a, kC6b] (by decide)

/-- C5 counterexample: with two target records sharing one source id and no
source records, every target is unmatched, so the claim predicts two ORPHAN
outcomes and output length 0 + 2; the target dict of the code collapses the
duplicate id, the first target vanishes (it is neither linked nor emitted as an
ORPHAN), and the output length is 1. -/
theorem claim5_counterexample :
    kC5a ≠ kC5b ∧
    (reconcile_entries none [] [kC5a, kC5b]).length = 1 ∧
    ¬ ((reconcile_entries none [] [kC5a, kC5b]).length =
        ([] : List TimeEntryNormalized).length +
          ([kC5a, kC5b] : List TimeEntryNormalized).length) ∧
    ((reconcile_entries none [] [kC5a, kC5b]).filter
      (fun o => o.kimai_entry == some kC5a)).length = 0 := by
  refine ⟨by decide, by decide, by decide, by decide⟩

theorem takeWhileNe_append (l r : List Char) (hl : '\n' ∉ l) :
    (l ++ '\n' :: r).takeWhile (fun c => c != '\n') = l := by
  induction l with
  | nil =>
    rw [List.nil_append]
    exact List.takeWhile_cons_of_neg (by simp)
  | cons a l ih =>
    have ha : a ≠ '\n' := by
      intro h
      exact hl (by simp [h])
    have hl' : '\n' ∉ l := fun h => hl (List.mem_cons_of_mem _ h)
    rw [List.cons_append, List.takeWhile_cons_of_pos (by simpa using ha), ih hl']

theorem strMk_data (m : String) : (⟨m.data⟩ : String) = m := by
  cases m
  rfl

theorem firstLine_eq_marker (m r : String) (hm : '\n' ∉ m.data) :
    firstLine (m ++ "\n" ++ r) = m := by
  have hd : (m ++ "\n" ++ r).data = m.data ++ '\n' :: r.data := by
    rw [strData_append, strData_append, List.append_assoc]
    rfl
  unfold firstLine
  rw [hd, takeWhileNe_append _ _ hm]

theorem firstLine_take_marker (m r : String) (n : Nat) (hm : '\n' ∉ m.data)
    (hn : m.length + 1 ≤ n) (suffix : String) :
    firstLine (strTake (m ++ "\n" ++ r) n ++ suffix) = m := by
  have hd : (m ++ "\n" ++ r).data = m.data ++ '\n' :: r.data := by
    rw [strData_append, strData_append, List.append_assoc]
    rfl
  have hlen : m.data.length ≤ n := le_trans (Nat.le_succ _) hn
  have hk : n - m.data.length = (n - m.data.length - 1) + 1 := by
    have h1 : m.data.length + 1 ≤ n := hn
    omega
  unfold firstLine strTake
  show (⟨((⟨(m ++ "\n" ++ r).data.take n⟩ : String) ++ suffix).data.takeWhile
    (fun c => c != '\n')⟩ : String) = m
  rw [strData_append]
  show (⟨((m ++ "\n" ++ r).data.take n ++ suffix.data).takeWhile
    (fun c => c != '\n')⟩ : String) = m
  rw [hd, List.take_append_eq_append_take, List.take_of_length_le hlen, hk,
    List.take_succ_cons, List.append_assoc, List.cons_append,
    takeWhileNe_append _ _ hm]

theorem firstLine_descriptionOf (e : TimeEntryNormalized)
    (hm : '\n' ∉ (markerOf e).data) (hlen : (markerOf e).length + 1 ≤ 497) :
    firstLine (descriptionOf e) = markerOf e := by
  simp only [descriptionOf]
  split
  · exact firstLine_take_marker (markerOf e) (descriptionTail e) 497 hm hlen "..."
  · exact firstLine_eq_marker (markerOf e) (descriptionTail e) hm

theorem createPass_grows (tz : Int → Int) (aid : TimeEntryNormalized → Int)
    (pid : Int) :
    ∀ (es target : List TimeEntryNormalized),
      target <+: (createPass tz aid pid es target).1 := by
  intro es
  induction es with
  | nil => intro t; exact List.prefix_rfl
  | cons e es ih =>
    intro t
    rw [createPass]
    cases hc : create_timesheet tz e pid (aid e) t with
    | created p =>
      exact (List.prefix_append t _).trans (ih (t ++ [storedEntryOf tz e (aid e)]))
    | already kid => exact ih t
    | diverged kid => exact ih t

theorem found_marker_no_create (tz : Int → Int) (e : TimeEntryNormalized)
    (pid aid : Int) (target : List TimeEntryNormalized)
    (h : ∃ ts ∈ target, inWindow e ts = true ∧ firstLine ts.description = markerOf e) :
    (create_timesheet tz e pid aid target).isCreated = false := by
  obtain ⟨ts, hmem, hw, hml⟩ := h
  simp only [create_timesheet]
  cases hf : (target.filter (inWindow e)).find?
      (fun t => firstLine t.description == markerOf e) with
  | none =>
    exfalso
    have hall := List.find?_eq_none.mp hf
    exact hall ts (List.mem_filter.mpr ⟨hmem, hw⟩) (by simp [hml])
  | some ts' =>
    split
    · split <;> rfl
    · rename_i heq
      exact absurd heq (by simp)

theorem create_not_created_found (tz : Int → Int) (e : TimeEntryNormalized)
    (pid aid : Int) (t : List TimeEntryNormalized)
    (hc : (create_timesheet tz e pid aid t).isCreated = false) :
    ∃ ts ∈ t, inWindow e ts = true ∧ firstLine ts.description = markerOf e := by
  simp only [create_timesheet] at hc
  cases hf : (t.filter (inWindow e)).find?
      (fun x => firstLine x.description == markerOf e) with
  | none =>
    rw [hf] at hc
    simp [CreateResult.isCreated] at hc
  | some ts =>
    have hm := List.mem_of_find?_eq_some hf
    have hp := List.find?_some hf
    have hmf := List.mem_filter.mp hm
    exact ⟨ts, hmf.1, hmf.2, by simpa using hp⟩

theorem pass_has_marker (tz : Int → Int) (aid : TimeEntryNormalized → Int)
    (pid : Int) :
    ∀ (es target : List TimeEntryNormalized), (∀ e ∈ es, Wf tz e) →
      ∀ e ∈ es, ∃ ts ∈ (createPass tz aid pid es target).1,
        inWindow e ts = true ∧ firstLine ts.description = markerOf e := by
  intro es
  induction es with
  | nil => intro t _ e he; cases he
  | cons e0 es ih =>
    intro t hwf e he
    rw [createPass]
    cases hc : create_timesheet tz e0 pid (aid e0) t with
    | created p =>
      dsimp only
      rcases List.mem_cons.mp he with rfl | he'
      · have hwf0 := hwf e (List.mem_cons_self _ _)
        refine ⟨storedEntryOf tz e (aid e), ?_, ?_, ?_⟩
        · exact (createPass_grows tz aid pid es
            (t ++ [storedEntryOf tz e (aid e)])).subset (by simp)
        · have h1 := hwf0.2.2.1
          have h2 := hwf0.2.2.2
          simp [inWindow, storedEntryOf, h1, h2]
        · exact firstLine_descriptionOf e hwf0.1 hwf0.2.1
      · exact ih (t ++ [storedEntryOf tz e0 (aid e0)])
          (fun x hx => hwf x (List.mem_cons_of_mem _ hx)) e he'
    | already kid =>
      dsimp only
      rcases List.mem_cons.mp he with rfl | he'
      · obtain ⟨ts, htm, hw, hml⟩ := create_not_created_found tz e pid (aid e) t
          (by rw [hc]; rfl)
        exact ⟨ts, (createPass_grows tz aid pid es t).subset htm, hw, hml⟩
      · exact ih t (fun x hx => hwf x (List.mem_cons_of_mem _ hx)) e he'
    | diverged kid =>
      dsimp only
      rcases List.mem_cons.mp he with rfl | he'
      · obtain ⟨ts, htm, hw, hml⟩ := create_not_created_found tz e pid (aid e) t
          (by rw [hc]; rfl)
        exact ⟨ts, (createPass_grows tz aid pid es t).subset htm, hw, hml⟩
      · exact ih t (fun x hx => hwf x (List.mem_cons_of_mem _ hx)) e he'

theorem no_create_when_found (tz : Int → Int) (aid : TimeEntryNormalized → Int)
    (pid : Int) :
    ∀ (es t1 : List TimeEntryNormalized),
      (∀ e ∈ es, ∃ ts ∈ t1, inWindow e ts = true ∧
        firstLine ts.description = markerOf e) →
      createPass tz aid pid es t1 = (t1, 0) := by
  intro es
  induction es with
  | nil => intro t1 _; rfl
  | cons e es ih =>
    intro t1 hall
    rw [createPass]
    have hnc := found_marker_no_create tz e pid (aid e) t1
      (hall e (List.mem_cons_self _ _))
    cases hc : create_timesheet tz e pid (aid e) t1 with
    | created p =>
      rw [hc] at hnc
      simp [CreateResult.isCreated] at hnc
    | already kid =>
      dsimp only
      exact ih t1 (fun x hx => hall x (List.mem_cons_of_mem _ hx))
    | diverged kid =>
      dsimp only
      exact ih t1 (fun x hx => hall x (List.mem_cons_of_mem _ hx))

/-- C1: before creating, `_create_timesheet` searches the ±7-day window around
the entry date for an existing target record whose description starts with the
exact idempotency marker as its first line, and whenever such a record is found
(in particular when it was found with equal duration and equal activity) it
skips creation; consequently, running the creation pass a second time over the
same MISSING records, with the target state produced by the first pass carried
over, creates zero new records: each record either found a marker match in the
first pass or created a record carrying its marker inside its search window,
so the second pass always finds a marker match and never creates. -/
theorem claim1_second_pass_creates_nothing (tz : Int → Int)
    (aid : TimeEntryNormalized → Int) (pid : Int)
    (es target : List TimeEntryNormalized) (hwf : ∀ e ∈ es, Wf tz e) :
    (∀ (e : TimeEntryNormalized) (pid2 aid2 : Int)
      (tgt : List TimeEntryNormalized),
      (∃ ts ∈ tgt, inWindow e ts = true ∧ firstLine ts.description = markerOf e) →
      (create_timesheet tz e pid2 aid2 tgt).isCreated = false) ∧
    (createPass tz aid pid es (createPass tz aid pid es target).1).2 = 0 := by
  constructor
  · intro e pid2 aid2 tgt hex
    exact found_marker_no_create tz e pid2 aid2 tgt hex
  · rw [no_create_when_found tz aid pid es _
      (pass_has_marker tz aid pid es target hwf)]

/-- C1 witness: the two-pass run at a concrete well-formed record, starting
from an empty target system. -/
theorem claim1_witness :
    (createPass tzBrussels aidC1 3 [eC1]
      (createPass tzBrussels aidC1 3 [eC1] []).1).2 = 0 :=
  (claim1_second_pass_creates_nothing tzBrussels aidC1 3 [eC1] [] (by decide)).2

end ZammadKimaiSync
